import Mathlib

set_option maxRecDepth 8192

/-
Verification of the zakopane checksum tool (src/zakopane/hash.py,
src/zakopane/file.py, src/cmp-zakopane.py) against its natural-language
specification.

Python strings are modelled as Lean `String` (a sequence of characters,
matching Python's sequence-of-code-points model); Python slicing is made
explicit through `pySliceIdx`.  Python exceptions are modelled with
`Except PyErr`; exception messages are not modelled (only the exception
class matters to the specification).
-/

/-- The Python exception classes raised by the modelled code. -/
inductive PyErr where
  | assertionError
  | valueError
  | keyError
  | typeError
  | notImplementedError
deriving DecidableEq, Repr

deriving instance DecidableEq for Except

/-- Normalizes a Python slice index `i` against a sequence of length `len`:
a negative index counts from the end (clamped at 0), a non-negative index is
clamped at `len`.  `s[:i]` is `take (pySliceIdx len i)` and `s[i:]` is
`drop (pySliceIdx len i)`. -/
def pySliceIdx (len : Nat) (i : Int) : Nat :=
  if i < 0 then ((len : Int) + i).toNat else min i.toNat len

/-- From src/zakopane/hash.py: `HASHLEN = len(hasher().hexdigest())` with
`hasher = hashlib.sha512`; a SHA-512 hex digest is 128 characters. -/
def HASHLEN : Nat := 128

/-- From src/zakopane/hash.py: `HASHSEP = " "`. -/
def HASHSEP : String := " "

/-- From src/zakopane/hash.py: `FREADTO = (-HASHLEN - len(HASHSEP))`. -/
def FREADTO : Int := -(HASHLEN : Int) - (HASHSEP.length : Int)

/-- From src/zakopane/hash.py `readHashLine`:
`return (line[:FREADTO], line[-HASHLEN:])`.  Python slicing is total, so
this function is total as well. -/
def readHashLine (line : String) : String × String :=
  (⟨line.data.take (pySliceIdx line.length FREADTO)⟩,
   ⟨line.data.drop (pySliceIdx line.length (-(HASHLEN : Int)))⟩)

/-- From src/zakopane/hash.py `formatHashLine`:
`return HASHSEP.join((fname, hash_))`.  In the source the digest is computed
from the file content by `doHashFile` (external I/O); here it is passed as
the argument `hash_`. -/
def formatHashLine (fname hash_ : String) : String :=
  fname ++ HASHSEP ++ hash_

/-- Boolean lexicographic comparison of character sequences by code point:
the order Python uses to compare strings (`list.sort` on filename strings). -/
def lexLe : List Char → List Char → Bool
  | [], _ => true
  | _ :: _, [] => false
  | a :: as, b :: bs =>
      if a.toNat < b.toNat then true
      else if b.toNat < a.toNat then false
      else lexLe as bs

/-- Python string comparison `a <= b`: lexicographic by code point. -/
def pyStrLe (a b : String) : Bool := lexLe a.data b.data

/-- From src/zakopane/file.py: `METASEP = "=" * 52`. -/
def METASEP : String := ⟨List.replicate 52 '='⟩

/-- From src/zakopane/file.py: `METAKVSEP = ": "`. -/
def METAKVSEP : String := ": "

/-- From src/zakopane/file.py: `ROOT = "Root"`. -/
def ROOT : String := "Root"

/-- From src/zakopane/file.py: `WHEN = "When"`. -/
def WHEN : String := "When"

/-- A Python `dict` with string keys and values, modelled as its list of
entries in insertion order (keys unique in any dict produced by the code). -/
abbrev PyDict := List (String × String)

/-- Python `key in d` for a dict. -/
def pyHasKey (d : PyDict) (k : String) : Bool :=
  d.any fun kv => kv.1 == k

/-- The value stored under `k`, if any (first entry with that key). -/
def pyLookup : PyDict → String → Option String
  | [], _ => none
  | kv :: rest, k => if kv.1 == k then some kv.2 else pyLookup rest k

/-- Python `d[k] = v`: replaces the value in place if `k` is present
(keeping its position, as Python dicts do), appends otherwise. -/
def pyInsert (d : PyDict) (k v : String) : PyDict :=
  if pyHasKey d k then d.map fun kv => if kv.1 == k then (k, v) else kv
  else d ++ [(k, v)]

/-- Python `d[k]` on a dict: raises `KeyError` when the key is absent. -/
def pyDictGet (d : PyDict) (k : String) : Except PyErr String :=
  match pyLookup d k with
  | some v => .ok v
  | none => .error .keyError

/-- Helper for `pySplit`, structurally recursive on a fuel argument that is
kept strictly larger than the length of the remaining input. -/
def pySplitAux (sep : List Char) : Nat → List Char → List Char → List (List Char)
  | 0, s, acc => [acc ++ s]
  | _ + 1, [], acc => [acc]
  | fuel + 1, c :: rest, acc =>
      if sep.isPrefixOf (c :: rest) then
        acc :: pySplitAux sep fuel ((c :: rest).drop sep.length) []
      else
        pySplitAux sep fuel rest (acc ++ [c])

/-- Python `s.split(sep)` for a non-empty separator: splits at every
non-overlapping occurrence of `sep`, scanning left to right; preserves empty
parts (`"".split(": ") == [""]`). -/
def pySplit (sep s : String) : List String :=
  (pySplitAux sep.data (s.data.length + 1) s.data []).map fun l => ⟨l⟩

/-- From src/zakopane/file.py `SumFile._readMeta`, the loop body.  The
argument list is the remaining slurp, `idx` is the (Python) index of the
next line, `md` is the metadata dict built so far.  Mirrors:
a closing `METASEP` line returns `(index + 1, metaDict)`; otherwise the line
is unpacked as `(key, val) = line.split(METAKVSEP)` (a `ValueError` when the
split does not yield exactly two parts), a repeated key trips the
`assert key not in metaDict`, and the pair is stored.  When the lines run
out without a closing sentinel, Python returns the index of the last line.  -/
def readMetaAux : List String → Nat → PyDict → Except PyErr (Nat × PyDict)
  | [], idx, md => .ok (idx - 1, md)
  | line :: rest, idx, md =>
      if line = METASEP then .ok (idx + 1, md)
      else
        match pySplit METAKVSEP line with
        | [key, val] =>
            if pyHasKey md key then .error .assertionError
            else readMetaAux rest (idx + 1) (md ++ [(key, val)])
        | _ => .error .valueError

/-- From src/zakopane/file.py `SumFile._readMeta`: asserts the slurp is
non-empty and that its first line is `METASEP`, then runs the loop on the
remaining lines. -/
def readMeta (slurp : List String) : Except PyErr (Nat × PyDict) :=
  match slurp with
  | [] => .error .assertionError
  | first :: rest =>
      if first = METASEP then readMetaAux rest 1 []
      else .error .assertionError

/-- From src/zakopane/file.py `SumFile._getMeta`: looks up the required keys
`WHEN` then `ROOT` in the metadata dict (each lookup raises `KeyError` when
absent).  The source additionally converts the `When` value with `float()`
and normalizes the `Root` value with `os.path.normpath`; no claim depends on
those value-level conversions, so both values are kept as their raw
strings here. -/
def getMeta (metaDict : PyDict) : Except PyErr (String × String) :=
  match pyDictGet metaDict WHEN with
  | .error e => .error e
  | .ok whenStr =>
      match pyDictGet metaDict ROOT with
      | .error e => .error e
      | .ok rootStr => .ok (whenStr, rootStr)

/-- From src/zakopane/file.py `SumFile._getSums`, the `while` loop.
`sumDictSelf` is the current value of the `self._sumDict` attribute the loop
assigns into: in the source it is still `None` when `_getSums` runs, so the
first item assignment `self._sumDict[fname] = fhash` raises `TypeError`.
The method body has no `return` statement, so on normal exit the method's
value is Python's implicit `None`. -/
def getSumsLoop (sumDictSelf : Option PyDict) : List String → Except PyErr (Option PyDict)
  | [] => .ok none
  | line :: rest =>
      let fnameFhash := readHashLine line
      match sumDictSelf with
      | none => .error .typeError
      | some d => getSumsLoop (some (pyInsert d fnameFhash.1 fnameFhash.2)) rest

/-- From src/zakopane/file.py `SumFile._getSums`: iterates over
`slurp[pickupIndex:]`. -/
def getSums (sumDictSelf : Option PyDict) (pickupIndex : Nat) (slurp : List String) :
    Except PyErr (Option PyDict) :=
  getSumsLoop sumDictSelf (slurp.drop pickupIndex)

/-- The observable state of a constructed `SumFile` (reading mode): the
`when` and `root` metadata and the `_sumDict` attribute (an `Option` because
the source ends up storing `None` in it — see `getSumsLoop`). -/
structure SumFile where
  when : String
  root : String
  sumDict : Option PyDict
deriving DecidableEq, Repr

/-- From src/zakopane/file.py `SumFile.__init__` with `reading=True`, given
the stripped lines of the file (`slurp`): runs `_readMeta`, `_getMeta`, and
`_getSums` in order, propagating any exception, and stores the value
returned by `_getSums` into `self._sumDict`. -/
def loadSumFile (slurp : List String) : Except PyErr SumFile :=
  match readMeta slurp with
  | .error e => .error e
  | .ok (pickupIndex, meta) =>
      match getMeta meta with
      | .error e => .error e
      | .ok (whenStr, rootStr) =>
          match getSums none pickupIndex slurp with
          | .error e => .error e
          | .ok sums => .ok ⟨whenStr, rootStr, sums⟩

/-- From src/zakopane/file.py `SumFile.__init__` with `reading=False`
(and `newSumFile`): `raise NotImplementedError("Can't write SumFiles yet.")`. -/
def newSumFile : Except PyErr SumFile :=
  .error .notImplementedError

/-- From src/zakopane/file.py `SumFile.__contains__`: `key in self._sumDict`;
a `TypeError` when `_sumDict` is `None`. -/
def sumFileContains (sf : SumFile) (key : String) : Except PyErr Bool :=
  match sf.sumDict with
  | none => .error .typeError
  | some d => .ok (pyHasKey d key)

/-- From src/zakopane/file.py `SumFile.__getitem__`: `self._sumDict[key]`;
a `TypeError` when `_sumDict` is `None`, a `KeyError` when the key is
absent. -/
def sumFileGetItem (sf : SumFile) (key : String) : Except PyErr String :=
  match sf.sumDict with
  | none => .error .typeError
  | some d => pyDictGet d key

/-- True when the computation raised an exception. -/
def isErr {α : Type} : Except PyErr α → Bool
  | .error _ => true
  | .ok _ => false

/-- The line parses under the header codec exactly into the key-value
pair `kv`. -/
def kvLine (line : String) (kv : String × String) : Prop :=
  pySplit METAKVSEP line = [kv.1, kv.2]

instance (line : String) (kv : String × String) : Decidable (kvLine line kv) := by
  unfold kvLine; infer_instance

/-- Whitespace for Python `str.strip` and `str.split` (our inputs only
contain ASCII space and tab, on which this agrees with Python). -/
def pyIsSpace (c : Char) : Bool := c.isWhitespace

/-- Python `s.strip()`: removes leading and trailing whitespace. -/
def pyStrip (s : String) : String :=
  ⟨((s.data.dropWhile pyIsSpace).reverse.dropWhile pyIsSpace).reverse⟩

/-- Python `s.split(maxsplit=1)` (no separator argument): strips leading
whitespace, then yields at most two parts — the first whitespace-free token
and the remainder with its own leading whitespace removed.  Yields `[]` for
an all-whitespace string and one part when nothing follows the token. -/
def pySplitWsMax1 (s : String) : List String :=
  let t := s.data.dropWhile pyIsSpace
  if t.isEmpty then []
  else
    let tok := t.takeWhile fun c => !pyIsSpace c
    let rest := (t.dropWhile fun c => !pyIsSpace c).dropWhile pyIsSpace
    if rest.isEmpty then [⟨tok⟩] else [⟨tok⟩, ⟨rest⟩]

/-- From src/cmp-zakopane.py: `ZF_DB_HEADER_LINES = 3`. -/
def ZF_DB_HEADER_LINES : Nat := 3

/-- From src/cmp-zakopane.py `process_line`: strips the line, unpacks
`(checksum_, fname_) = zf_kv.split(maxsplit=1)` (a `ValueError` unless the
split yields exactly two parts — note the first token is taken as the
checksum and the remainder as the filename), strips both, and stores
`dictified[fname] = checksum`. -/
def process_line (zf_line : String) (dictified : PyDict) : Except PyErr PyDict :=
  let zf_kv := pyStrip zf_line
  match pySplitWsMax1 zf_kv with
  | [checksum_, fname_] => .ok (pyInsert dictified (pyStrip fname_) (pyStrip checksum_))
  | _ => .error .valueError

/-- From src/cmp-zakopane.py `dictify_zf`, the `for` loop: skips the first
`in_header` lines, feeds every later line to `process_line`. -/
def dictifyAux : Nat → List String → PyDict → Except PyErr PyDict
  | _, [], d => .ok d
  | 0, line :: rest, d =>
      match process_line line d with
      | .error e => .error e
      | .ok d2 => dictifyAux 0 rest d2
  | inHeader + 1, _ :: rest, d => dictifyAux inHeader rest d

/-- From src/cmp-zakopane.py `dictify_zf`, given the lines of the file at
path `fname` (line iteration yields each line, whose trailing newline
`process_line` strips away). -/
def dictify_zf (lines : List String) : Except PyErr PyDict :=
  dictifyAux ZF_DB_HEADER_LINES lines []

/-- Python `list.sort()` on strings: ascending lexicographic
(stable; shown here as an insertion sort, which produces the same sorted
list). -/
def pySort (l : List String) : List String :=
  List.insertionSort (fun a b => pyStrLe a b = true) l

/-- From src/cmp-zakopane.py `print_diff`: the list comprehension
`[key for (key, val) in dba.items() if key in dbb and dbb[key] != val]`
followed by `diff.sort()`; the function then prints one path per line, so
the returned list is exactly the printed output. -/
def print_diff (dba dbb : PyDict) : List String :=
  pySort ((dba.filter fun kv =>
    match pyLookup dbb kv.1 with
    | none => false
    | some w => decide (w ≠ kv.2)).map Prod.fst)

/-- From src/cmp-zakopane.py `main`: dictifies both files (any exception
propagates and aborts the process with a non-zero exit), prints the diff,
and returns 0.  The result models the pair (printed lines, exit code). -/
def cliMain (fileA fileB : List String) : Except PyErr (List String × Nat) :=
  match dictify_zf fileA with
  | .error e => .error e
  | .ok zf_dba =>
      match dictify_zf fileB with
      | .error e => .error e
      | .ok zf_dbb => .ok (print_diff zf_dba zf_dbb, 0)

/-- The observable outcomes of `open(self.dbMapFname, "r")` followed by
`json.load` in src/zakopane/file.py `DbMapFile.__init__`: the file cannot be
read (`IOError`/`OSError`, e.g. it does not exist), it holds malformed JSON
(`json.JSONDecodeError`, a subclass of `ValueError`), or it parses to a JSON
object, i.e. a dict (entries listed in document order, keys unique). -/
inductive DbFileState where
  | absent
  | malformed
  | parsed (m : PyDict)
deriving DecidableEq, Repr

/-- A JSON object yields a dict: its keys are unique. -/
def WfFileState : DbFileState → Prop
  | .parsed m => (m.map Prod.fst).Nodup
  | _ => True

/-- Python `set.add`: membership-preserving insertion. -/
def pySetAdd (s : List String) (v : String) : List String :=
  if s.contains v then s else s ++ [v]

/-- Python `set(m.values())`, as a duplicate-free list of the values. -/
def pySetOfValues (m : PyDict) : List String :=
  (m.map Prod.snd).dedup

/-- The in-memory state of a `DbMapFile`: the `dbMap` dict and the
`dbValues` set (modelled as a duplicate-free list). -/
structure DbMapFile where
  dbMap : PyDict
  dbValues : List String
deriving DecidableEq, Repr

/-- From src/zakopane/file.py `DbMapFile.__init__` (after the directory
housekeeping, which is external I/O): tries to read and `json.load` the
persisted document, setting `dbMap`/`dbValues` from it; the
`except (IOError, OSError)` arm initializes an empty registry; any other
exception — in particular the `ValueError` raised for malformed JSON —
propagates. -/
def dbMapInit : DbFileState → Except PyErr DbMapFile
  | .absent => .ok ⟨[], []⟩
  | .malformed => .error .valueError
  | .parsed m => .ok ⟨m, pySetOfValues m⟩

/-- From src/zakopane/file.py `DbMapFile.__setitem__`: raises `KeyError`
when the key is already in `dbMap` or the value is already in `dbValues`;
otherwise stores the pair and adds the value to the set. -/
def dbSetItem (db : DbMapFile) (key value : String) : Except PyErr DbMapFile :=
  if pyHasKey db.dbMap key then .error .keyError
  else if db.dbValues.contains value then .error .keyError
  else .ok ⟨pyInsert db.dbMap key value, pySetAdd db.dbValues value⟩

/-- From src/zakopane/file.py `DbMapFile.dryAddKeyValue`: starts from 0,
adds 1 when the key is in `dbMap`, adds 2 when the value is in `dbValues`;
no state is touched (mirrored here by the function's purity). -/
def dryAddKeyValue (db : DbMapFile) (key value : String) : Nat :=
  (if pyHasKey db.dbMap key then 1 else 0) +
  (if db.dbValues.contains value then 2 else 0)

/-- From src/zakopane/file.py `DbMapFile.add`: `value = str(uuid.uuid4())`
followed by `self.__setitem__(key, value)`.  The generated UUID string is
external randomness, passed here as the argument `uuidValue`. -/
def dbAdd (db : DbMapFile) (key uuidValue : String) : Except PyErr DbMapFile :=
  dbSetItem db key uuidValue

/-- From src/zakopane/file.py `DbMapFile.commit`: serializes `dbMap` to the
persisted document (external I/O) and returns 0; the in-memory state is
unchanged. -/
def dbCommit (db : DbMapFile) : Nat × DbMapFile :=
  (0, db)

/-- The registry states reachable through the public operations:
construction/load, `__setitem__`, `add`, and `commit`. -/
inductive DbReachable : DbMapFile → Prop where
  | load (fs : DbFileState) (db : DbMapFile) (hwf : WfFileState fs)
      (h : dbMapInit fs = .ok db) : DbReachable db
  | set (db : DbMapFile) (k v : String) (db2 : DbMapFile) (hr : DbReachable db)
      (h : dbSetItem db k v = .ok db2) : DbReachable db2
  | add (db : DbMapFile) (k u : String) (db2 : DbMapFile) (hr : DbReachable db)
      (h : dbAdd db k u = .ok db2) : DbReachable db2
  | commit (db : DbMapFile) (hr : DbReachable db) : DbReachable (dbCommit db).2

/-- The key-to-value mapping has no two entries sharing a value. -/
def InjMap (m : PyDict) : Prop :=
  ∀ p ∈ m, ∀ q ∈ m, p.2 = q.2 → p.1 = q.1

instance (m : PyDict) : Decidable (InjMap m) := by
  unfold InjMap; infer_instance

theorem pyHasKey_eq_true_iff (d : PyDict) (k : String) :
    pyHasKey d k = true ↔ k ∈ d.map Prod.fst := by
  induction d with
  | nil => simp [pyHasKey]
  | cons kv rest ih =>
      simp only [pyHasKey, List.any_cons, Bool.or_eq_true, beq_iff_eq,
        List.map_cons, List.mem_cons] at ih ⊢
      exact or_congr eq_comm Iff.rfl |>.trans (or_congr Iff.rfl ih) |>.symm |>.symm

theorem pyHasKey_eq_false_iff (d : PyDict) (k : String) :
    pyHasKey d k = false ↔ k ∉ d.map Prod.fst := by
  rw [← Bool.not_eq_true, not_iff_not, pyHasKey_eq_true_iff]

theorem pyHasKey_append (d1 d2 : PyDict) (k : String) :
    pyHasKey (d1 ++ d2) k = (pyHasKey d1 k || pyHasKey d2 k) := by
  simp [pyHasKey, List.any_append]

theorem pyLookup_eq_none_iff (d : PyDict) (k : String) :
    pyLookup d k = none ↔ k ∉ d.map Prod.fst := by
  induction d with
  | nil => simp [pyLookup]
  | cons kv rest ih =>
      by_cases h : kv.1 = k
      · simp [pyLookup, h]
      · simp [pyLookup, h, ih, Ne.symm h]

theorem pyLookup_eq_some_of_mem (d : PyDict) (k v : String)
    (hnd : (d.map Prod.fst).Nodup) (hm : (k, v) ∈ d) :
    pyLookup d k = some v := by
  induction d with
  | nil => simp at hm
  | cons kv rest ih =>
      obtain ⟨a, b⟩ := kv
      rw [List.map_cons, List.nodup_cons] at hnd
      rcases List.mem_cons.mp hm with h | h
      · rw [← h]
        simp [pyLookup]
      · have hk : ¬ a = k := by
          intro he
          exact hnd.1 (by rw [he]; exact List.mem_map.mpr ⟨(k, v), h, rfl⟩)
        simp [pyLookup, hk]
        exact ih hnd.2 h

theorem pyLookup_mem (d : PyDict) (k v : String) (h : pyLookup d k = some v) :
    (k, v) ∈ d := by
  induction d with
  | nil => simp [pyLookup] at h
  | cons kv rest ih =>
      obtain ⟨a, b⟩ := kv
      by_cases he : a = k
      · subst he
        simp [pyLookup] at h
        rw [← h]
        exact List.mem_cons_self _ _
      · simp [pyLookup, he] at h
        exact List.mem_cons_of_mem _ (ih h)

theorem pyInsert_of_hasKey_false (d : PyDict) (k v : String)
    (h : pyHasKey d k = false) : pyInsert d k v = d ++ [(k, v)] := by
  simp [pyInsert, h]

theorem formatHashLine_data (fname hash_ : String) :
    (formatHashLine fname hash_).data = (fname.data ++ [' ']) ++ hash_.data := by
  simp [formatHashLine, String.data_append, HASHSEP]

theorem formatHashLine_length (fname hash_ : String) :
    (formatHashLine fname hash_).length = fname.data.length + 1 + hash_.data.length := by
  have h : (formatHashLine fname hash_).length = (formatHashLine fname hash_).data.length := rfl
  rw [h, formatHashLine_data]
  simp
  omega

/-- C5: record round-trip.  For every path string containing no newline
(including paths that contain the separator character) and every digest
string of length `HASHLEN`, parsing the formatted line `path + SEP + digest`
with the suffix-anchored parser returns exactly `(path, digest)`. -/
theorem c5_record_roundtrip (path digest : String) (_hnl : '\n' ∉ path.data)
    (hlen : digest.length = HASHLEN) :
    readHashLine (formatHashLine path digest) = (path, digest) := by
  have hd : digest.data.length = 128 := hlen
  have hL : (formatHashLine path digest).length = path.data.length + 129 := by
    rw [formatHashLine_length]; omega
  have hidx1 : pySliceIdx (formatHashLine path digest).length FREADTO =
      path.data.length := by
    have hf : FREADTO = -129 := by decide
    rw [hL, hf]
    simp [pySliceIdx]
  have hidx2 : pySliceIdx (formatHashLine path digest).length (-(HASHLEN : Int)) =
      path.data.length + 1 := by
    rw [hL]
    simp [pySliceIdx, HASHLEN]
    omega
  unfold readHashLine
  rw [hidx1, hidx2, formatHashLine_data]
  simp only [Prod.mk.injEq]
  constructor
  · apply String.ext
    show ((path.data ++ [' ']) ++ digest.data).take path.data.length = path.data
    rw [List.append_assoc]
    exact List.take_left path.data ([' '] ++ digest.data)
  · apply String.ext
    show ((path.data ++ [' ']) ++ digest.data).drop (path.data.length + 1) = digest.data
    have h1 : path.data.length + 1 = (path.data ++ [' ']).length := by simp
    rw [h1]
    exact List.drop_left (path.data ++ [' ']) digest.data

/-- C5 witness: a concrete round-trip through a path that contains the
separator character. -/
theorem c5_record_roundtrip_witness :
    readHashLine (formatHashLine "my dir/a b.txt" ⟨List.replicate 128 'f'⟩) =
      ("my dir/a b.txt", ⟨List.replicate 128 'f'⟩) :=
  c5_record_roundtrip "my dir/a b.txt" ⟨List.replicate 128 'f'⟩ (by decide) (by decide)

/-- C3 counterexample: the claim says `readHashLine` fails with a
malformed-record error on every line shorter than `HASHLEN + len(SEP)` and
does not return a (path, digest) pair for such a line.  The source raises
nothing: Python slicing is total, and on the 3-character line "abc" the
function returns the pair `("", "abc")`. -/
theorem c3_short_line_counterexample :
    readHashLine "abc" = ("", "abc") := by decide

/-- C3 amended: `readHashLine` never fails; for every line shorter than
`HASHLEN + len(SEP)` (129 characters) it returns the pair whose path
component is empty and whose digest component is the entire line. -/
theorem c3_amended_short_line (line : String)
    (h : line.length < HASHLEN + HASHSEP.length) :
    readHashLine line = ("", line) := by
  have hl : line.length < 129 := by
    have h129 : HASHLEN + HASHSEP.length = 129 := by decide
    rw [h129] at h
    exact h
  have h1 : pySliceIdx line.length FREADTO = 0 := by
    have hf : FREADTO = -129 := by decide
    rw [hf]
    simp [pySliceIdx]
    omega
  have h2 : pySliceIdx line.length (-(HASHLEN : Int)) = 0 := by
    simp [pySliceIdx, HASHLEN]
    omega
  unfold readHashLine
  rw [h1, h2]
  simp only [Prod.mk.injEq]
  constructor
  · apply String.ext
    show line.data.take 0 = ("" : String).data
    rfl
  · apply String.ext
    show line.data.drop 0 = line.data
    rfl

/-- C3 amended witness at the empty line. -/
theorem c3_amended_short_line_witness : readHashLine "" = ("", "") :=
  c3_amended_short_line "" (by decide)

/-- C4 counterexample: the claim says every failure to read or parse the
persisted document — including malformed JSON — yields an empty registry.
In the source only `IOError`/`OSError` are caught; `json.load` raises
`json.JSONDecodeError` (a `ValueError`) on malformed JSON, which propagates
out of `DbMapFile.__init__` instead of producing an empty registry. -/
theorem c4_malformed_json_counterexample :
    dbMapInit .malformed = .error .valueError := rfl

/-- C4 amended: a failure to read the persisted document (the file missing
or unreadable, i.e. `IOError`/`OSError`) initializes an empty registry, but
a document containing malformed JSON raises a `ValueError` instead. -/
theorem c4_amended_registry_load :
    dbMapInit .absent = .ok ⟨[], []⟩ ∧ dbMapInit .malformed = .error .valueError :=
  ⟨rfl, rfl⟩

/-- C1 (code bug): on a well-formed sum file — sentinel-delimited header
holding `When` and `Root`, followed by a body record produced by the
format's own encoder — constructing a `SumFile` in reading mode does not
yield a usable store: `_getSums` assigns into `self._sumDict`, which is
still `None`, so the constructor raises `TypeError` as soon as the body is
non-empty (and `_getSums` returns `None`, never the dict its docstring
promises). -/
theorem c1_sumfile_load_raises_typeerror :
    loadSumFile [METASEP, "Root: /tmp/x", "When: 1700000000.0", METASEP,
      formatHashLine "a.txt" ⟨List.replicate 128 '0'⟩] = .error .typeError := by
  decide

/-- C2 (code bug): the comparison CLI, fed two files in the external
sum-file text format of section 6 (four header lines at minimum, records
`path SEP digest`), does not print the differing paths: `dictify_zf` skips
only `ZF_DB_HEADER_LINES = 3` lines, so the closing sentinel reaches
`process_line`, whose `split(maxsplit=1)` yields a single part and the
2-tuple unpacking raises `ValueError`.  (Records are moreover parsed as
`<checksum> <fname>`, the reverse of the section-6 field order.)  Here both
input files are well-formed per section 6 and share path "f.txt" with
differing digests, so the claim requires the output `["f.txt"]` with exit
code 0; the code instead raises. -/
theorem c2_cli_crashes_on_sumfile_format :
    cliMain
      [METASEP, "Root: /a", "When: 1.0", METASEP,
        formatHashLine "f.txt" ⟨List.replicate 128 'a'⟩]
      [METASEP, "Root: /a", "When: 2.0", METASEP,
        formatHashLine "f.txt" ⟨List.replicate 128 'b'⟩] = .error .valueError := by
  decide

theorem mem_of_contains_true (s : List String) (v : String)
    (h : s.contains v = true) : v ∈ s := by
  simpa using h

theorem not_mem_of_contains_false (s : List String) (v : String)
    (h : s.contains v = false) : v ∉ s := by
  simpa using h

theorem pySetAdd_of_contains_false (s : List String) (v : String)
    (h : s.contains v = false) : pySetAdd s v = s ++ [v] := by
  simp [pySetAdd, not_mem_of_contains_false s v h]

/-- C7: `__setitem__` fails with a conflict error (`KeyError`) whenever the
key is already a key of `dbMap` or the value is already among `dbValues`
(even under a different key); when neither conflict holds it appends the
pair to the mapping and the value to the value-set used for the later
uniqueness checks. -/
theorem c7_set_conflict_spec (db : DbMapFile) (k v : String) :
    (pyHasKey db.dbMap k = true ∨ db.dbValues.contains v = true →
      dbSetItem db k v = .error .keyError) ∧
    (pyHasKey db.dbMap k = false → db.dbValues.contains v = false →
      dbSetItem db k v = .ok ⟨db.dbMap ++ [(k, v)], db.dbValues ++ [v]⟩) := by
  constructor
  · rintro (h | h)
    · simp [dbSetItem, h]
    · by_cases hk : pyHasKey db.dbMap k = true
      · simp [dbSetItem, hk]
      · simp [dbSetItem, hk, mem_of_contains_true _ _ h]
  · intro hk hv
    simp [dbSetItem, hk, not_mem_of_contains_false _ _ hv,
      pyInsert_of_hasKey_false _ _ _ hk, pySetAdd_of_contains_false _ _ hv]

/-- C7 witness: in the registry `{"a": "1"}` the insertions `("a", "2")`
(key conflict) and `("b", "1")` (value conflict under a different key) both
fail, while `("b", "2")` succeeds and records the value. -/
theorem c7_set_conflict_spec_witness :
    dbSetItem ⟨[("a", "1")], ["1"]⟩ "a" "2" = .error .keyError ∧
    dbSetItem ⟨[("a", "1")], ["1"]⟩ "b" "1" = .error .keyError ∧
    dbSetItem ⟨[("a", "1")], ["1"]⟩ "b" "2" =
      .ok ⟨[("a", "1"), ("b", "2")], ["1", "2"]⟩ :=
  ⟨(c7_set_conflict_spec ⟨[("a", "1")], ["1"]⟩ "a" "2").1 (Or.inl (by decide)),
   (c7_set_conflict_spec ⟨[("a", "1")], ["1"]⟩ "b" "1").1 (Or.inr (by decide)),
   (c7_set_conflict_spec ⟨[("a", "1")], ["1"]⟩ "b" "2").2 (by decide) (by decide)⟩

/-- C9: `dryAddKeyValue` returns 0 when neither the key is a key of `dbMap`
nor the value is in `dbValues`, 1 when only the key is present, 2 when only
the value is present, and 3 when both are; being a pure function of the
state, it leaves `dbMap` and `dbValues` unchanged in all four cases (the
source method likewise performs no assignment). -/
theorem c9_drycheck_spec (db : DbMapFile) (k v : String) :
    (pyHasKey db.dbMap k = false → db.dbValues.contains v = false →
      dryAddKeyValue db k v = 0) ∧
    (pyHasKey db.dbMap k = true → db.dbValues.contains v = false →
      dryAddKeyValue db k v = 1) ∧
    (pyHasKey db.dbMap k = false → db.dbValues.contains v = true →
      dryAddKeyValue db k v = 2) ∧
    (pyHasKey db.dbMap k = true → db.dbValues.contains v = true →
      dryAddKeyValue db k v = 3) := by
  refine ⟨fun h1 h2 => ?_, fun h1 h2 => ?_, fun h1 h2 => ?_, fun h1 h2 => ?_⟩ <;>
    first
      | simp [dryAddKeyValue, h1, not_mem_of_contains_false _ _ h2]
      | simp [dryAddKeyValue, h1, mem_of_contains_true _ _ h2]

/-- C9 witness: the four return values on concrete registries. -/
theorem c9_drycheck_spec_witness :
    dryAddKeyValue ⟨[("a", "1")], ["1"]⟩ "b" "2" = 0 ∧
    dryAddKeyValue ⟨[("a", "1")], ["1"]⟩ "a" "2" = 1 ∧
    dryAddKeyValue ⟨[("a", "1")], ["1"]⟩ "b" "1" = 2 ∧
    dryAddKeyValue ⟨[("a", "1")], ["1"]⟩ "a" "1" = 3 :=
  ⟨(c9_drycheck_spec ⟨[("a", "1")], ["1"]⟩ "b" "2").1 (by decide) (by decide),
   (c9_drycheck_spec ⟨[("a", "1")], ["1"]⟩ "a" "2").2.1 (by decide) (by decide),
   (c9_drycheck_spec ⟨[("a", "1")], ["1"]⟩ "b" "1").2.2.1 (by decide) (by decide),
   (c9_drycheck_spec ⟨[("a", "1")], ["1"]⟩ "a" "1").2.2.2 (by decide) (by decide)⟩

theorem lexLe_total : ∀ as bs : List Char, lexLe as bs = true ∨ lexLe bs as = true := by
  intro as
  induction as with
  | nil => intro bs; left; rfl
  | cons a as2 ih =>
      intro bs
      cases bs with
      | nil => right; rfl
      | cons b bs2 =>
          by_cases h1 : a.toNat < b.toNat
          · left; simp [lexLe, h1]
          · by_cases h2 : b.toNat < a.toNat
            · right; simp [lexLe, h2]
            · rcases ih bs2 with h | h
              · left; simp [lexLe, h1, h2, h]
              · right; simp [lexLe, h1, h2, h]

theorem lexLe_trans : ∀ as bs cs : List Char,
    lexLe as bs = true → lexLe bs cs = true → lexLe as cs = true := by
  intro as
  induction as with
  | nil => intro bs cs h1 h2; rfl
  | cons a as2 ih =>
      intro bs cs h1 h2
      cases bs with
      | nil => simp [lexLe] at h1
      | cons b bs2 =>
          cases cs with
          | nil => simp [lexLe] at h2
          | cons c cs2 =>
              by_cases hab : a.toNat < b.toNat
              · by_cases hbc : b.toNat < c.toNat
                · have hac : a.toNat < c.toNat := Nat.lt_trans hab hbc
                  simp [lexLe, hac]
                · by_cases hcb : c.toNat < b.toNat
                  · simp [lexLe, hbc, hcb] at h2
                  · have hac : a.toNat < c.toNat := by omega
                    simp [lexLe, hac]
              · by_cases hba : b.toNat < a.toNat
                · simp [lexLe, hab, hba] at h1
                · have h1s : lexLe as2 bs2 = true := by simpa [lexLe, hab, hba] using h1
                  by_cases hbc : b.toNat < c.toNat
                  · have hac : a.toNat < c.toNat := by omega
                    simp [lexLe, hac]
                  · by_cases hcb : c.toNat < b.toNat
                    · simp [lexLe, hbc, hcb] at h2
                    · have h2s : lexLe bs2 cs2 = true := by simpa [lexLe, hbc, hcb] using h2
                      have hac1 : ¬ a.toNat < c.toNat := by omega
                      have hac2 : ¬ c.toNat < a.toNat := by omega
                      simp [lexLe, hac1, hac2, ih bs2 cs2 h1s h2s]

instance : IsTotal String fun a b => pyStrLe a b = true :=
  ⟨fun a b => lexLe_total a.data b.data⟩

instance : IsTrans String fun a b => pyStrLe a b = true :=
  ⟨fun a b c => lexLe_trans a.data b.data c.data⟩

/-- C6: the diff printed by `print_diff` contains exactly the paths that are
keys of both mappings whose stored digests differ (paths present in only one
mapping never appear), and the printed list is sorted ascending in the
lexicographic string order Python sorts by. -/
theorem c6_diff_spec (dba dbb : PyDict) :
    List.Sorted (fun a b => pyStrLe a b = true) (print_diff dba dbb) ∧
    ((dba.map Prod.fst).Nodup →
      ∀ p, p ∈ print_diff dba dbb ↔
        ∃ v w, pyLookup dba p = some v ∧ pyLookup dbb p = some w ∧ w ≠ v) := by
  constructor
  · exact List.sorted_insertionSort _ _
  · intro hnd p
    unfold print_diff pySort
    rw [List.mem_insertionSort]
    constructor
    · intro hp
      obtain ⟨kv, hkv, hfst⟩ := List.mem_map.mp hp
      obtain ⟨hmem, hpred⟩ := List.mem_filter.mp hkv
      cases hw : pyLookup dbb kv.1 with
      | none => rw [hw] at hpred; simp at hpred
      | some w =>
          rw [hw] at hpred
          simp at hpred
          refine ⟨kv.2, w, ?_, ?_, hpred⟩
          · rw [← hfst]
            exact pyLookup_eq_some_of_mem dba kv.1 kv.2 hnd hmem
          · rw [← hfst]
            exact hw
    · rintro ⟨v, w, hv, hw, hne⟩
      have hmem : (p, v) ∈ dba := pyLookup_mem dba p v hv
      apply List.mem_map.mpr
      refine ⟨(p, v), List.mem_filter.mpr ⟨hmem, ?_⟩, rfl⟩
      show (match pyLookup dbb p with
        | none => false
        | some w2 => decide (w2 ≠ v)) = true
      rw [hw]
      simp [hne]

/-- C6 witness, at the worked example from the specification:
`a = {"x": "1", "y": "2"}`, `b = {"x": "9", "y": "2", "z": "3"}`;
the diff is `["x"]`. -/
theorem c6_diff_spec_witness :
    List.Sorted (fun a b => pyStrLe a b = true)
      (print_diff [("x", "1"), ("y", "2")] [("x", "9"), ("y", "2"), ("z", "3")]) ∧
    ("x" ∈ print_diff [("x", "1"), ("y", "2")] [("x", "9"), ("y", "2"), ("z", "3")] ↔
      ∃ v w, pyLookup [("x", "1"), ("y", "2")] "x" = some v ∧
        pyLookup [("x", "9"), ("y", "2"), ("z", "3")] "x" = some w ∧ w ≠ v) :=
  ⟨(c6_diff_spec [("x", "1"), ("y", "2")] [("x", "9"), ("y", "2"), ("z", "3")]).1,
   (c6_diff_spec [("x", "1"), ("y", "2")] [("x", "9"), ("y", "2"), ("z", "3")]).2
     (by decide) "x"⟩

theorem readMetaAux_append_ok (rest : List String) :
    ∀ {header : List String} {kvs : PyDict}, List.Forall₂ kvLine header kvs →
      ∀ (idx : Nat) (md : PyDict),
      (∀ l ∈ header, l ≠ METASEP) →
      (∀ k ∈ kvs.map Prod.fst, pyHasKey md k = false) →
      (kvs.map Prod.fst).Nodup →
      readMetaAux (header ++ METASEP :: rest) idx md =
        .ok (idx + header.length + 1, md ++ kvs) := by
  intro header kvs hf
  induction hf with
  | nil =>
      intro idx md _ _ _
      simp [readMetaAux]
  | @cons line kv header2 kvs2 h1 h2 ih =>
      intro idx md hns hnew hnd
      have hline : line ≠ METASEP := hns line (List.mem_cons_self _ _)
      have hk : pyHasKey md kv.1 = false := hnew kv.1 (by simp)
      have h1e : pySplit METAKVSEP line = [kv.1, kv.2] := h1
      rw [List.cons_append]
      simp only [readMetaAux, if_neg hline, h1e, hk, Bool.false_eq_true, if_false]
      rw [List.map_cons, List.nodup_cons] at hnd
      have step := ih (idx + 1) (md ++ [(kv.1, kv.2)])
        (fun l hl => hns l (List.mem_cons_of_mem _ hl))
        (by
          intro k2 hk2
          rw [pyHasKey_append]
          have hmd : pyHasKey md k2 = false := hnew k2 (by simp [hk2])
          have hne : ¬ kv.1 = k2 := fun he => hnd.1 (he ▸ hk2)
          have hsingle : pyHasKey [(kv.1, kv.2)] k2 = false := by
            simp [pyHasKey, hne]
          simp [hmd, hsingle])
        hnd.2
      rw [step]
      simp only [Except.ok.injEq, Prod.mk.injEq, List.length_cons]
      constructor
      · omega
      · simp

theorem readMetaAux_dup_err (rest2 : List String) :
    ∀ {header : List String} {kvs : PyDict}, List.Forall₂ kvLine header kvs →
      ∀ (idx : Nat) (md : PyDict),
      (∀ l ∈ header, l ≠ METASEP) →
      (md.map Prod.fst).Nodup →
      ¬ (md.map Prod.fst ++ kvs.map Prod.fst).Nodup →
      readMetaAux (header ++ rest2) idx md = .error .assertionError := by
  intro header kvs hf
  induction hf with
  | nil =>
      intro idx md _ hmd hdup
      exact absurd (by simpa using hmd) hdup
  | @cons line kv header2 kvs2 h1 h2 ih =>
      intro idx md hns hmd hdup
      have hline : line ≠ METASEP := hns line (List.mem_cons_self _ _)
      have h1e : pySplit METAKVSEP line = [kv.1, kv.2] := h1
      rw [List.cons_append]
      simp only [readMetaAux, if_neg hline, h1e]
      by_cases hk : pyHasKey md kv.1 = true
      · rw [if_pos hk]
      · have hk2 : pyHasKey md kv.1 = false := by simpa using hk
        simp only [hk2, Bool.false_eq_true, if_false]
        apply ih (idx + 1) (md ++ [(kv.1, kv.2)])
            (fun l hl => hns l (List.mem_cons_of_mem _ hl))
        · rw [List.map_append]
          rw [List.nodup_append]
          refine ⟨hmd, by simp, ?_⟩
          intro x hx hx2
          simp at hx2
          rw [hx2] at hx
          exact absurd hx ((pyHasKey_eq_false_iff _ _).mp hk2)
        · intro hnd
          apply hdup
          rw [List.map_append, List.append_assoc] at hnd
          simpa using hnd

/-- C8: loading a sum file fails with a malformed-input error when (i) the
file is empty, (ii) the first line is not the 52-character sentinel,
(iii) a header key occurs twice between the sentinels, or (iv) a required
header key (`When` or `Root`) is absent when the header ends.  The result
in each case is an exception, so no partial `SumFile` is returned. -/
theorem c8_malformed_sumfile_rejection :
    isErr (loadSumFile []) = true ∧
    (∀ (first : String) (rest : List String), first ≠ METASEP →
      isErr (loadSumFile (first :: rest)) = true) ∧
    (∀ (header : List String) (kvs : PyDict) (rest : List String),
      List.Forall₂ kvLine header kvs →
      (∀ l ∈ header, l ≠ METASEP) →
      ¬ (kvs.map Prod.fst).Nodup →
      isErr (loadSumFile (METASEP :: (header ++ METASEP :: rest))) = true) ∧
    (∀ (header : List String) (kvs : PyDict) (rest : List String),
      List.Forall₂ kvLine header kvs →
      (∀ l ∈ header, l ≠ METASEP) →
      (kvs.map Prod.fst).Nodup →
      WHEN ∉ kvs.map Prod.fst ∨ ROOT ∉ kvs.map Prod.fst →
      isErr (loadSumFile (METASEP :: (header ++ METASEP :: rest))) = true) := by
  refine ⟨rfl, ?_, ?_, ?_⟩
  · intro first rest hne
    simp [loadSumFile, readMeta, hne, isErr]
  · intro header kvs rest hf hns hdup
    have herr : readMetaAux (header ++ METASEP :: rest) 1 [] = .error .assertionError := by
      apply readMetaAux_dup_err (METASEP :: rest) hf 1 [] hns (by simp)
      simpa using hdup
    simp [loadSumFile, readMeta, herr, isErr]
  · intro header kvs rest hf hns hnd hmiss
    have hok : readMetaAux (header ++ METASEP :: rest) 1 [] =
        .ok (1 + header.length + 1, kvs) := by
      have h := readMetaAux_append_ok rest hf 1 []
        hns (by intro k hk; simp [pyHasKey]) hnd
      simpa using h
    rcases hmiss with hwhen | hroot
    · have hw : pyLookup kvs WHEN = none := (pyLookup_eq_none_iff _ _).mpr hwhen
      simp [loadSumFile, readMeta, hok, getMeta, pyDictGet, hw, isErr]
    · have hr : pyLookup kvs ROOT = none := (pyLookup_eq_none_iff _ _).mpr hroot
      cases hw : pyLookup kvs WHEN with
      | none => simp [loadSumFile, readMeta, hok, getMeta, pyDictGet, hw, isErr]
      | some w => simp [loadSumFile, readMeta, hok, getMeta, pyDictGet, hw, hr, isErr]

/-- C8 witness: the four rejection cases at concrete files — the empty
file, a file opening with a non-sentinel line, a header repeating the key
"a", and a header whose `When` key is missing. -/
theorem c8_malformed_sumfile_rejection_witness :
    isErr (loadSumFile []) = true ∧
    isErr (loadSumFile ["bogus first line"]) = true ∧
    isErr (loadSumFile [METASEP, "a: 1", "a: 2", METASEP]) = true ∧
    isErr (loadSumFile [METASEP, "Root: /x", METASEP]) = true :=
  ⟨c8_malformed_sumfile_rejection.1,
   c8_malformed_sumfile_rejection.2.1 "bogus first line" [] (by decide),
   c8_malformed_sumfile_rejection.2.2.1 ["a: 1", "a: 2"] [("a", "1"), ("a", "2")] []
     (List.Forall₂.cons (by decide) (List.Forall₂.cons (by decide) List.Forall₂.nil))
     (by decide) (by decide),
   c8_malformed_sumfile_rejection.2.2.2 ["Root: /x"] [("Root", "/x")] []
     (List.Forall₂.cons (by decide) List.Forall₂.nil)
     (by decide) (by decide) (Or.inl (by decide))⟩

theorem dbSetItem_ok_shape (db : DbMapFile) (k v : String) (db2 : DbMapFile)
    (h : dbSetItem db k v = .ok db2) :
    pyHasKey db.dbMap k = false ∧ db.dbValues.contains v = false ∧
      db2 = ⟨db.dbMap ++ [(k, v)], db.dbValues ++ [v]⟩ := by
  unfold dbSetItem at h
  split at h
  next hc1 => exact absurd h (by simp)
  next hc1 =>
    split at h
    next hc2 => exact absurd h (by simp)
    next hc2 =>
      have h1f : pyHasKey db.dbMap k = false := by simpa using hc1
      have h2f : db.dbValues.contains v = false := by simpa using hc2
      refine ⟨h1f, h2f, ?_⟩
      rw [pyInsert_of_hasKey_false _ _ _ h1f, pySetAdd_of_contains_false _ _ h2f] at h
      simpa [eq_comm] using h

theorem dbReachable_values_inv :
    ∀ db, DbReachable db → ∀ v, (v ∈ db.dbValues ↔ v ∈ db.dbMap.map Prod.snd) := by
  intro db h
  induction h with
  | load fs db hwf hinit =>
      intro v
      cases fs with
      | absent =>
          simp [dbMapInit] at hinit
          rw [← hinit]
          simp
      | malformed => simp [dbMapInit] at hinit
      | parsed m =>
          simp [dbMapInit] at hinit
          rw [← hinit]
          simp [pySetOfValues, List.mem_dedup]
  | set db k u db2 hr hset ih =>
      intro v
      obtain ⟨h1, h2, hshape⟩ := dbSetItem_ok_shape db k u db2 hset
      subst hshape
      rw [List.map_append]
      simp only [List.mem_append]
      exact or_congr (ih v) (by simp)
  | add db k u db2 hr hset ih =>
      intro v
      obtain ⟨h1, h2, hshape⟩ := dbSetItem_ok_shape db k u db2 hset
      subst hshape
      rw [List.map_append]
      simp only [List.mem_append]
      exact or_congr (ih v) (by simp)
  | commit db hr ih =>
      intro v
      exact ih v

/-- C10 counterexample: the claim concludes that the mapping of every
reachable registry state is injective.  The state loaded from the persisted
JSON document `{"a": "x", "b": "x"}` — a well-formed object with unique
keys — is reachable, satisfies the value-set equation, and its mapping is
not injective. -/
theorem c10_injectivity_counterexample :
    DbReachable ⟨[("a", "x"), ("b", "x")], ["x"]⟩ ∧
    ¬ InjMap [("a", "x"), ("b", "x")] := by
  constructor
  · exact DbReachable.load (.parsed [("a", "x"), ("b", "x")])
      ⟨[("a", "x"), ("b", "x")], ["x"]⟩ (by unfold WfFileState; decide) (by decide)
  · unfold InjMap
    decide

/-- C10 amended: in every state reachable through the public operations
(construction/load, set, add, commit) the auxiliary value-set equals
exactly the set of values of the key-to-value mapping; and `set` preserves
injectivity of the mapping (it refuses any value already in the value-set),
though a state loaded from a persisted document with duplicated values is
itself non-injective. -/
theorem c10_value_set_invariant :
    (∀ db, DbReachable db → ∀ v, (v ∈ db.dbValues ↔ v ∈ db.dbMap.map Prod.snd)) ∧
    (∀ (db : DbMapFile) (k v : String) (db2 : DbMapFile), DbReachable db →
      InjMap db.dbMap → dbSetItem db k v = .ok db2 → InjMap db2.dbMap) := by
  refine ⟨dbReachable_values_inv, ?_⟩
  intro db k v db2 hr hinj hset
  obtain ⟨h1, h2, hshape⟩ := dbSetItem_ok_shape db k v db2 hset
  subst hshape
  have hvnot : v ∉ db.dbMap.map Prod.snd := by
    intro hv
    have hmem := (dbReachable_values_inv db hr v).mpr hv
    exact absurd hmem (not_mem_of_contains_false _ _ h2)
  intro p hp q hq hpq
  rcases List.mem_append.mp hp with hp1 | hp2
  · rcases List.mem_append.mp hq with hq1 | hq2
    · exact hinj p hp1 q hq1 hpq
    · simp at hq2
      subst hq2
      exact absurd (List.mem_map.mpr ⟨p, hp1, hpq⟩) hvnot
  · simp at hp2
    subst hp2
    rcases List.mem_append.mp hq with hq1 | hq2
    · exact absurd (List.mem_map.mpr ⟨q, hq1, hpq.symm⟩) hvnot
    · simp at hq2
      subst hq2
      rfl

/-- C10 amended witness: the invariant instantiated at the loaded registry
`{"a": "x"}`, and injectivity preserved through the successful insertion
`("b", "y")`. -/
theorem c10_value_set_invariant_witness :
    ("x" ∈ (DbMapFile.mk [("a", "x")] ["x"]).dbValues ↔
      "x" ∈ (DbMapFile.mk [("a", "x")] ["x"]).dbMap.map Prod.snd) ∧
    InjMap [("a", "x"), ("b", "y")] := by
  have hr : DbReachable ⟨[("a", "x")], ["x"]⟩ :=
    DbReachable.load (.parsed [("a", "x")]) ⟨[("a", "x")], ["x"]⟩
      (by unfold WfFileState; decide) (by decide)
  refine ⟨c10_value_set_invariant.1 _ hr "x", ?_⟩
  exact c10_value_set_invariant.2 ⟨[("a", "x")], ["x"]⟩ "b" "y"
    ⟨[("a", "x"), ("b", "y")], ["x", "y"]⟩ hr (by unfold InjMap; decide) (by decide)
